import Mathlib

/-!
Shallow embedding of `src/js/core.js` (mobile-rpg-engine core module).

JS numbers are modelled as `Int` where the code only performs integer
arithmetic (character stats, health, experience, entity counts) and as `Rat`
in the combat maths, where the code uses fractional constants (0.95, 0.5,
0.01, 0.2, 0.1, 1.5).  Event publications performed by Character and Engine
methods (`this.engine.eventBus.emit(...)`) are modelled as an explicit list of
`GameEvent`s returned next to the mutated state; the EventBus's own dispatch
mechanics (listener lists, `on`/`once`/`off`/`emit`) are modelled separately
below with listener behaviours as first-order data.
-/

namespace RPG

/-- Events published on the engine's event bus by the modelled methods.
The payload `{character: this}` / `{entity}` is represented by the id. -/
inductive GameEvent where
  | characterDied (cid : Nat)
  | characterLevelUp (cid : Nat) (newLevel : Int)
  | entityAdded (eid : Nat)
  deriving DecidableEq, Repr

/-- An equippable item.  Only the two fields read by
`calculateTotalAttack`/`calculateTotalDefense` are modelled; `none` stands
for an absent (JS `undefined`) field. -/
structure Item where
  attack : Option Int := none
  defense : Option Int := none
  deriving DecidableEq, Repr

/-- The 7 fixed equipment slots of `Character.equipment`. -/
structure Equipment where
  head : Option Item := none
  chest : Option Item := none
  hands : Option Item := none
  legs : Option Item := none
  feet : Option Item := none
  mainHand : Option Item := none
  offHand : Option Item := none
  deriving DecidableEq, Repr

/-- The six base attributes stored in `this.stats`. -/
structure BaseStats where
  strength : Int := 10
  dexterity : Int := 10
  constitution : Int := 10
  intelligence : Int := 10
  wisdom : Int := 10
  charisma : Int := 10
  deriving DecidableEq, Repr

/-- `Character` state (the `Entity` fields it inherits plus its own fields).
`hasEngine` models whether `this.engine` is non-null (it is set by
`RPGEngine.addEntity`); components, tags, the embedded inventory and the
status-effect list are omitted because no verified claim touches them. -/
structure Character where
  id : Nat
  name : String := ""
  x : Int := 0
  y : Int := 0
  hasEngine : Bool := false
  level : Int := 1
  experience : Int := 0
  health : Int := 100
  maxHealth : Int := 100
  mana : Int := 50
  maxMana : Int := 50
  stats : BaseStats := {}
  attack : Int := 5
  defense : Int := 5
  attackSpeed : Int := 1
  movementSpeed : Int := 100
  equipment : Equipment := {}
  isAlive : Bool := true
  isInCombat : Bool := false
  deriving DecidableEq, Repr

/-- The constructor's `config` object: `none` is an absent field. -/
structure CharConfig where
  x : Option Int := none
  y : Option Int := none
  level : Option Int := none
  experience : Option Int := none
  health : Option Int := none
  maxHealth : Option Int := none
  mana : Option Int := none
  maxMana : Option Int := none
  strength : Option Int := none
  dexterity : Option Int := none
  constitution : Option Int := none
  intelligence : Option Int := none
  wisdom : Option Int := none
  charisma : Option Int := none
  attack : Option Int := none
  defense : Option Int := none
  attackSpeed : Option Int := none
  movementSpeed : Option Int := none
  deriving DecidableEq, Repr

/-- JS `config.field || default` on a numeric field: an absent field or a
configured `0` (both falsy) yield the default; any other number is kept. -/
def jsOrNum (v : Option Int) (d : Int) : Int :=
  match v with
  | none => d
  | some n => if n = 0 then d else n

/-- `Character` constructor (`new Character(id, name, config)` plus the
`Entity` super-constructor). -/
def mkCharacter (id : Nat) (nm : String) (cfg : CharConfig) : Character :=
  { id := id
    name := nm
    x := jsOrNum cfg.x 0
    y := jsOrNum cfg.y 0
    hasEngine := false
    level := jsOrNum cfg.level 1
    experience := jsOrNum cfg.experience 0
    health := jsOrNum cfg.health 100
    maxHealth := jsOrNum cfg.maxHealth 100
    mana := jsOrNum cfg.mana 50
    maxMana := jsOrNum cfg.maxMana 50
    stats :=
      { strength := jsOrNum cfg.strength 10
        dexterity := jsOrNum cfg.dexterity 10
        constitution := jsOrNum cfg.constitution 10
        intelligence := jsOrNum cfg.intelligence 10
        wisdom := jsOrNum cfg.wisdom 10
        charisma := jsOrNum cfg.charisma 10 }
    attack := jsOrNum cfg.attack 5
    defense := jsOrNum cfg.defense 5
    attackSpeed := jsOrNum cfg.attackSpeed 1
    movementSpeed := jsOrNum cfg.movementSpeed 100
    equipment := {}
    isAlive := true
    isInCombat := false }

namespace Character

/-- `takeDamage(amount)`: `this.health -= amount`; if the result is `<= 0`,
clamp to 0, flip `isAlive`, and (when `this.engine` is set) publish
`character:died` with the character. -/
def takeDamage (c : Character) (amount : Int) : Character × List GameEvent :=
  let h := c.health - amount
  if h ≤ 0 then
    ({ c with health := 0, isAlive := false },
      if c.hasEngine then [GameEvent.characterDied c.id] else [])
  else
    ({ c with health := h }, [])

/-- `heal(amount)`: `this.health = Math.min(this.health + amount, this.maxHealth)`. -/
def heal (c : Character) (amount : Int) : Character :=
  { c with health := min (c.health + amount) c.maxHealth }

/-- `levelUp(newLevel)`: raise level, grow the maxima by the level
difference, fully restore health and mana, publish `character:levelUp`
with `newLevel` when an engine is attached. -/
def levelUp (c : Character) (newLevel : Int) : Character × List GameEvent :=
  let d := newLevel - c.level
  let mh := c.maxHealth + 10 * d
  let mm := c.maxMana + 5 * d
  ({ c with level := newLevel, maxHealth := mh, maxMana := mm,
            health := mh, mana := mm },
    if c.hasEngine then [GameEvent.characterLevelUp c.id newLevel] else [])

/-- `addExperience(amount)`: accumulate experience, recompute
`newLevel = Math.floor(this.experience / 100) + 1` (floor division),
and call `levelUp` only when it strictly exceeds the current level. -/
def addExperience (c : Character) (amount : Int) : Character × List GameEvent :=
  let e := c.experience + amount
  let newLevel := e.fdiv 100 + 1
  let c' := { c with experience := e }
  if newLevel > c.level then levelUp c' newLevel else (c', [])

/-- `this.equipment.mainHand.attack || 0` reads of an item field: absent or
zero yields 0. -/
def itemAttackOrZero (it : Item) : Int :=
  match it.attack with
  | none => 0
  | some a => a

/-- `calculateTotalAttack()`: base attack plus the main-hand weapon's
attack bonus (0 when unequipped or the item defines none). -/
def calculateTotalAttack (c : Character) : Int :=
  c.attack +
    match c.equipment.mainHand with
    | none => 0
    | some it => itemAttackOrZero it

/-- `if (item && item.defense) total += item.defense` for one slot
(a zero defense field is falsy and contributes nothing). -/
def slotDefense (slot : Option Item) : Int :=
  match slot with
  | none => 0
  | some it =>
    match it.defense with
    | none => 0
    | some d => if d = 0 then 0 else d

/-- `calculateTotalDefense()`: base defense plus every equipped item's
defense bonus across all 7 slots. -/
def calculateTotalDefense (c : Character) : Int :=
  c.defense + slotDefense c.equipment.head + slotDefense c.equipment.chest +
    slotDefense c.equipment.hands + slotDefense c.equipment.legs +
    slotDefense c.equipment.feet + slotDefense c.equipment.mainHand +
    slotDefense c.equipment.offHand

end Character

/-- Invariant claimed by the spec: health within `[0, maxHealth]` and
`isAlive` false exactly when health is 0. -/
def healthInv (c : Character) : Prop :=
  0 ≤ c.health ∧ c.health ≤ c.maxHealth ∧ (c.isAlive = false ↔ c.health = 0)

instance (c : Character) : Decidable (healthInv c) := by
  unfold healthInv; infer_instance

/-- The weakening of `healthInv` that the code actually preserves (for
nonnegative amounts): the range bound, and death whenever health is 0 —
but a dead character may later have positive health with `isAlive` still
false (`heal` has no death guard). -/
def healthInvWeak (c : Character) : Prop :=
  0 ≤ c.health ∧ c.health ≤ c.maxHealth ∧ (c.health = 0 → c.isAlive = false)

instance (c : Character) : Decidable (healthInvWeak c) := by
  unfold healthInvWeak; infer_instance

/-- Level is the pure function of experience the spec states. -/
def levelInv (c : Character) : Prop :=
  c.level = c.experience.fdiv 100 + 1

instance (c : Character) : Decidable (levelInv c) := by
  unfold levelInv; infer_instance

/-- Fold a list of `addExperience` amounts over a character (events dropped). -/
def applyAddExps (c : Character) : List Int → Character
  | [] => c
  | a :: rest => applyAddExps (Character.addExperience c a).1 rest

/-- A fresh level-1 character built from an empty config. -/
def freshCharacter (id : Nat) : Character := mkCharacter id "" {}

/-- A fresh character registered with an engine (as `addEntity` leaves it). -/
def charEngineDemo : Character := { freshCharacter 0 with hasEngine := true }

/-- A dead character (health 0) owned by an engine. -/
def deadDemo : Character :=
  { charEngineDemo with health := 0, isAlive := false }

/-- The result object of `CombatSystem.performAttack`. -/
structure AttackResult where
  hit : Bool
  damage : Int
  critical : Bool
  deriving DecidableEq, Repr

/-- JS `Math.round`: round half toward positive infinity. -/
def jsRound (q : ℚ) : Int := Rat.floor (q + 1 / 2)

namespace CombatSystem

/-- `calculateDamage(attacker, defender, baseMultiplier)` with the
`Math.random()` draw for the ±10% variance passed in as `varianceRoll`
(the code computes `variance = Math.random() * 0.2 - 0.1`). -/
def calculateDamage (attacker defender : Character) (baseMultiplier : ℚ)
    (varianceRoll : ℚ) : Int :=
  let attackPower : ℚ := (attacker.calculateTotalAttack : ℚ) * baseMultiplier
  let defenseReduction : ℚ := (defender.calculateTotalDefense : ℚ) * (1 / 2)
  let variance : ℚ := varianceRoll * (1 / 5) - 1 / 10
  jsRound (max 1 ((attackPower - defenseReduction) * (1 + variance)))

/-- `hitChance = Math.min(0.95, 0.5 + (atk.dexterity - def.dexterity) * 0.01)`. -/
def hitChance (attacker defender : Character) : ℚ :=
  min (95 / 100)
    (1 / 2 + ((attacker.stats.dexterity : ℚ) - (defender.stats.dexterity : ℚ)) * (1 / 100))

/-- `performAttack(attacker, defender)` with the three `Math.random()` draws
(hit roll, critical roll, damage-variance roll) passed in as inputs.
Returns the result object, the updated defender, and the events that the
defender's `takeDamage` published. -/
def performAttack (attacker defender : Character)
    (hitRoll critRoll varianceRoll : ℚ) :
    AttackResult × Character × List GameEvent :=
  if hitRoll > hitChance attacker defender then
    (⟨false, 0, false⟩, defender, [])
  else
    let isCritical : Bool := critRoll < (attacker.stats.dexterity : ℚ) / 100
    let multiplier : ℚ := if isCritical then 3 / 2 else 1
    let damage := calculateDamage attacker defender multiplier varianceRoll
    let hitOutcome := defender.takeDamage damage
    (⟨true, damage, isCritical⟩, hitOutcome.1, hitOutcome.2)

end CombatSystem

/-- A registered entity as far as `RPGEngine.addEntity` is concerned:
its id and whether its `engine` back-reference is set. -/
structure Ent where
  id : Nat
  hasEngine : Bool := false
  deriving DecidableEq, Repr

/-- JS `Map.set`: replace in place when the key exists, else append. -/
def mapSet : List (Nat × Ent) → Nat → Ent → List (Nat × Ent)
  | [], k, v => [(k, v)]
  | (k', v') :: rest, k, v =>
    if k' = k then (k, v) :: rest else (k', v') :: mapSet rest k v

/-- Engine state relevant to the entity registry (`this.entities` is a JS
`Map` modelled as an insertion-ordered association list with unique keys;
`this.config.maxEntities`). -/
structure RPGEngine where
  maxEntities : Nat := 1000
  entities : List (Nat × Ent) := []
  deriving DecidableEq, Repr

namespace RPGEngine

/-- `getEntity(entityId)`: `this.entities.get(entityId)`. -/
def getEntity (eng : RPGEngine) (eid : Nat) : Option Ent :=
  match eng.entities.find? (fun p => p.1 == eid) with
  | none => none
  | some p => some p.2

/-- `addEntity(entity)`: reject (returning `false`, no event, no mutation)
when the registry has reached `maxEntities`; otherwise store the entity
under its id, set its `engine` back-reference, publish `entity:added`,
and return `true`. -/
def addEntity (eng : RPGEngine) (e : Ent) : Bool × RPGEngine × List GameEvent :=
  if eng.entities.length ≥ eng.maxEntities then
    (false, eng, [])
  else
    (true,
      { eng with entities := mapSet eng.entities e.id { e with hasEngine := true } },
      [GameEvent.entityAdded e.id])

end RPGEngine

/-!
### EventBus

Listener callbacks are modelled as first-order data: an environment
`env : Nat → LBody` gives each listener id (standing for the JS function's
reference identity) a behaviour.  A plain behaviour either returns
normally, throws, or calls `bus.off(topic, lid)`; `once(topic, cb)`
subscribes a wrapper whose behaviour runs the inner callback and then
unsubscribes itself — unless the inner callback threw, in which case the
JS wrapper's `this.off(...)` line is never reached.

`off` assigns a *new* filtered array to `this.events[topic]`, so an
iteration already in progress inside `emit` (a `forEach` over the old
array) is unaffected; `emit` therefore folds over the listener list
looked up once at the start.  The `try`/`catch` around each callback in
`emit` is modelled by `invoke` discarding the fault flag.
-/

/-- A plain listener behaviour. -/
inductive SimpleAct where
  | ok
  | throwErr
  | callOff (topic : String) (lid : Nat)
  deriving DecidableEq, Repr

/-- A subscribed callback's behaviour: either a plain behaviour, or the
wrapper that `once(topic, cb)` subscribes (carrying the topic it will
unsubscribe from, a tag identifying the inner callback in traces, and the
inner callback's behaviour). -/
inductive LBody where
  | act (a : SimpleAct)
  | onceWrap (topic : String) (innerTag : Nat) (inner : SimpleAct)
  deriving DecidableEq, Repr

/-- `this.events`: topic name to ordered listener list. -/
structure Bus where
  events : List (String × List Nat)
  deriving DecidableEq, Repr

namespace EventBus

/-- Look a topic up in `this.events` (`undefined` is `none`). -/
def findTopic : List (String × List Nat) → String → Option (List Nat)
  | [], _ => none
  | (t', l) :: rest, t => if t' = t then some l else findTopic rest t

/-- The listener list of a topic, `[]` when the topic is absent. -/
def getTopic (b : Bus) (t : String) : List Nat :=
  (findTopic b.events t).getD []

/-- Assign `this.events[t] = l` (replace or append the topic entry). -/
def setTopic : List (String × List Nat) → String → List Nat → List (String × List Nat)
  | [], t, l => [(t, l)]
  | (t', l') :: rest, t, l =>
    if t' = t then (t, l) :: rest else (t', l') :: setTopic rest t l

/-- `on(eventName, callback)`: create the topic list if absent, then push
(`on` is a Lean keyword, hence the longer name). -/
def onCallback (b : Bus) (t : String) (lid : Nat) : Bus :=
  ⟨setTopic b.events t (getTopic b t ++ [lid])⟩

/-- `off(eventName, callback)`: when the topic exists, replace its list by
a new array with every occurrence of the callback filtered out. -/
def off (b : Bus) (t : String) (lid : Nat) : Bus :=
  match findTopic b.events t with
  | none => b
  | some l => ⟨setTopic b.events t (l.filter (fun x => x != lid))⟩

/-- `once(eventName, callback)`: subscribe a fresh wrapper id `w` whose
behaviour is the once-wrapper around the inner callback. -/
def once (env : Nat → LBody) (b : Bus) (t : String) (w itag : Nat)
    (inner : SimpleAct) : Bus × (Nat → LBody) :=
  (onCallback b t w, Function.update env w (LBody.onceWrap t itag inner))

/-- Run a plain behaviour; the `Bool` is the fault flag (`true` = threw). -/
def runAct (b : Bus) (a : SimpleAct) : Bus × Bool :=
  match a with
  | .ok => (b, false)
  | .throwErr => (b, true)
  | .callOff t j => (off b t j, false)

/-- Invoke one subscribed callback inside `emit`'s `try`/`catch`: the trace
records which (inner) callback ran; a fault is caught and discarded.  For a
once-wrapper, the self-unsubscribe happens only when the inner callback
returned normally. -/
def invoke (env : Nat → LBody) (b : Bus) (lid : Nat) : Bus × List Nat :=
  match env lid with
  | .act a => ((runAct b a).1, [lid])
  | .onceWrap t _itag inner =>
    let r := runAct b inner
    if r.2 then (r.1, [_itag]) else (off r.1 t lid, [_itag])

/-- The `forEach` body of `emit` over the listener array captured at the
start of the call. -/
def emitList (env : Nat → LBody) : List Nat → Bus → Bus × List Nat
  | [], b => (b, [])
  | l :: ls, b =>
    let r1 := invoke env b l
    let r2 := emitList env ls r1.1
    (r2.1, r1.2 ++ r2.2)

/-- `emit(eventName, data)`: iterate over the current listener array (if
any), invoking each callback under a `try`/`catch`.  The payload is not
modelled (no verified claim inspects it); the returned list is the trace
of callbacks that ran. -/
def emit (env : Nat → LBody) (b : Bus) (t : String) : Bus × List Nat :=
  match findTopic b.events t with
  | none => (b, [])
  | some l => emitList env l b

/-- The trace tag a listener id contributes when invoked. -/
def tagOf (env : Nat → LBody) (l : Nat) : Nat :=
  match env l with
  | .act _ => l
  | .onceWrap _ itag _ => itag

/-- `k` successive `emit` calls on topic `t`. -/
def emitIter (env : Nat → LBody) (t : String) : Nat → Bus → Bus
  | 0, b => b
  | k + 1, b => (emit env (emitIter env t k b) t).1

end EventBus

/-- A bus with listeners 1, 2, 3 subscribed to topic `"t"` in that order. -/
def busThree : Bus :=
  EventBus.onCallback (EventBus.onCallback (EventBus.onCallback ⟨[]⟩ "t" 1) "t" 2) "t" 3

/-- Listener 2 unsubscribes listener 3 from `"t"` mid-delivery; everyone
else returns normally. -/
def envOffDuring : Nat → LBody :=
  fun l => if l = 2 then LBody.act (SimpleAct.callOff "t" 3) else LBody.act SimpleAct.ok

/-- An environment in which every listener returns normally. -/
def envOk : Nat → LBody := fun _ => LBody.act SimpleAct.ok

/-- `once("death", cb)` on an empty bus where the inner callback `cb`
(trace tag 7) always throws; wrapper id 1. -/
def onceThrowSetup : Bus × (Nat → LBody) :=
  EventBus.once envOk ⟨[]⟩ "death" 1 7 SimpleAct.throwErr

/-- A bus with only the once-wrapper 1 on `"death"`, whose inner callback
(trace tag 1) returns normally. -/
def busOnce : Bus := EventBus.onCallback ⟨[]⟩ "death" 1

/-- Behaviour environment for `busOnce`. -/
def envOnce : Nat → LBody :=
  Function.update envOk 1 (LBody.onceWrap "death" 1 SimpleAct.ok)

/-- A demo entity for the engine-registry claims. -/
def entDemo : Ent := { id := 5 }

/-- An engine whose registry is already at its configured maximum. -/
def engFull : RPGEngine := { maxEntities := 0 }

/-- An engine with room in its registry. -/
def engRoom : RPGEngine := { maxEntities := 2 }

/-!
### Helper lemmas about the EventBus model
-/

namespace EventBus

theorem findTopic_setTopic_self (es : List (String × List Nat)) (t : String)
    (l : List Nat) : findTopic (setTopic es t l) t = some l := by
  induction es with
  | nil => simp [setTopic, findTopic]
  | cons hd tl ih =>
    obtain ⟨t', l'⟩ := hd
    by_cases h : t' = t
    · simp [setTopic, h, findTopic]
    · simp [setTopic, h, findTopic, ih]

theorem findTopic_setTopic_ne (es : List (String × List Nat)) {t u : String}
    (l : List Nat) (h : t ≠ u) : findTopic (setTopic es t l) u = findTopic es u := by
  induction es with
  | nil => simp [setTopic, findTopic, h]
  | cons hd tl ih =>
    obtain ⟨t', l'⟩ := hd
    by_cases h' : t' = t
    · subst h'; simp [setTopic, findTopic, h]
    · simp [setTopic, h', findTopic, ih]

theorem getTopic_off_self (b : Bus) (t : String) (j : Nat) :
    j ∉ getTopic (off b t j) t := by
  unfold off
  cases hf : findTopic b.events t with
  | none => simp [getTopic, hf]
  | some l =>
    simp only [getTopic, findTopic_setTopic_self, Option.getD_some]
    intro hmem
    have := (List.mem_filter.mp hmem).2
    simp at this

theorem mem_getTopic_off {x : Nat} {b : Bus} {t u : String} {j : Nat}
    (h : x ∈ getTopic (off b t j) u) : x ∈ getTopic b u := by
  unfold off at h
  cases hf : findTopic b.events t with
  | none => rwa [hf] at h
  | some l =>
    rw [hf] at h
    by_cases he : t = u
    · subst he
      simp only [getTopic, findTopic_setTopic_self, Option.getD_some] at h
      have := (List.mem_filter.mp h).1
      simp [getTopic, hf, this]
    · simpa [getTopic, findTopic_setTopic_ne _ _ he] using h

theorem mem_getTopic_runAct {x : Nat} {b : Bus} {a : SimpleAct} {u : String}
    (h : x ∈ getTopic (runAct b a).1 u) : x ∈ getTopic b u := by
  cases a with
  | ok => exact h
  | throwErr => exact h
  | callOff t j => exact mem_getTopic_off h

theorem mem_getTopic_invoke {x : Nat} {env : Nat → LBody} {b : Bus} {l : Nat}
    {u : String} (h : x ∈ getTopic (invoke env b l).1 u) : x ∈ getTopic b u := by
  unfold invoke at h
  cases henv : env l with
  | act a =>
    rw [henv] at h
    exact mem_getTopic_runAct h
  | onceWrap t itag inner =>
    rw [henv] at h
    dsimp at h
    split at h
    · exact mem_getTopic_runAct h
    · exact mem_getTopic_runAct (mem_getTopic_off h)

theorem mem_getTopic_emitList {x : Nat} {env : Nat → LBody} {u : String} :
    ∀ {L : List Nat} {b : Bus}, x ∈ getTopic (emitList env L b).1 u → x ∈ getTopic b u := by
  intro L
  induction L with
  | nil => intro b h; exact h
  | cons hd tl ih =>
    intro b h
    exact mem_getTopic_invoke (ih h)

theorem mem_getTopic_emit {x : Nat} {env : Nat → LBody} {b : Bus} {t u : String}
    (h : x ∈ getTopic (emit env b t).1 u) : x ∈ getTopic b u := by
  unfold emit at h
  cases hf : findTopic b.events t with
  | none => rwa [hf] at h
  | some l =>
    rw [hf] at h
    exact mem_getTopic_emitList h

theorem invoke_trace (env : Nat → LBody) (b : Bus) (l : Nat) :
    (invoke env b l).2 = [tagOf env l] := by
  unfold invoke tagOf
  cases env l with
  | act a => rfl
  | onceWrap t itag inner =>
    dsimp
    split <;> rfl

theorem emitList_trace (env : Nat → LBody) :
    ∀ (L : List Nat) (b : Bus), (emitList env L b).2 = L.map (tagOf env) := by
  intro L
  induction L with
  | nil => intro b; rfl
  | cons hd tl ih =>
    intro b
    simp [emitList, invoke_trace, ih]

theorem emit_trace (env : Nat → LBody) (b : Bus) (t : String) :
    (emit env b t).2 = (getTopic b t).map (tagOf env) := by
  unfold emit
  cases hf : findTopic b.events t with
  | none => simp [getTopic, hf]
  | some l => simp [getTopic, hf, emitList_trace]

theorem emitList_removes {env : Nat → LBody} {l j : Nat} {t : String}
    (hrm : ∀ b' : Bus, j ∉ getTopic (invoke env b' l).1 t) :
    ∀ {L : List Nat} {b : Bus}, l ∈ L → j ∉ getTopic (emitList env L b).1 t := by
  intro L
  induction L with
  | nil => intro b h; cases h
  | cons hd tl ih =>
    intro b h
    rcases List.mem_cons.mp h with heq | htl
    · subst heq
      intro hmem
      exact hrm b (mem_getTopic_emitList hmem)
    · exact ih htl

theorem invoke_removes_callOff {env : Nat → LBody} {l j : Nat} {t : String}
    (henv : env l = LBody.act (SimpleAct.callOff t j)) (b : Bus) :
    j ∉ getTopic (invoke env b l).1 t := by
  unfold invoke
  rw [henv]
  exact getTopic_off_self b t j

theorem invoke_removes_once {env : Nat → LBody} {w itag : Nat} {t : String}
    {inner : SimpleAct} (henv : env w = LBody.onceWrap t itag inner)
    (hnothrow : inner ≠ SimpleAct.throwErr) (b : Bus) :
    w ∉ getTopic (invoke env b w).1 t := by
  unfold invoke
  rw [henv]
  dsimp
  have hfault : (runAct b inner).2 = false := by
    cases inner with
    | ok => rfl
    | throwErr => exact absurd rfl hnothrow
    | callOff t' j' => rfl
  rw [hfault]
  simp only [Bool.false_eq_true, if_false]
  exact getTopic_off_self _ t w

theorem emit_count_zero {env : Nat → LBody} {b : Bus} {t : String} {w itag : Nat}
    (hw : w ∉ getTopic b t) (htag : ∀ l, tagOf env l = itag → l = w) :
    ((emit env b t).2).count itag = 0 := by
  rw [emit_trace, List.count_eq_zero]
  intro hmem
  rcases List.mem_map.mp hmem with ⟨l, hl, hlt⟩
  exact hw (htag l hlt ▸ hl)

theorem emitIter_not_mem {env : Nat → LBody} {t : String} {w : Nat} {b : Bus}
    (hw : w ∉ getTopic b t) : ∀ k, w ∉ getTopic (emitIter env t k b) t := by
  intro k
  induction k with
  | zero => exact hw
  | succ n ih =>
    intro hmem
    exact ih (mem_getTopic_emit hmem)

theorem emit_count_one {env : Nat → LBody} {b : Bus} {t : String} {w itag : Nat}
    (htagw : tagOf env w = itag) (htag : ∀ l, tagOf env l = itag → l = w)
    (hcount : (getTopic b t).count w = 1) :
    ((emit env b t).2).count itag = 1 := by
  rw [emit_trace, List.count_eq_countP, List.countP_map]
  have hfun : ((fun x => x == itag) ∘ tagOf env) = fun l => l == w := by
    funext l
    by_cases h : l = w
    · subst h; simp [htagw]
    · have hne : tagOf env l ≠ itag := fun hc => h (htag l hc)
      simp [hne, h]
  rw [hfun, ← List.count_eq_countP]
  exact hcount

end EventBus

/-!
### Arithmetic helpers
-/

/-- JS `Math.floor(x / 100)` is floor division; rephrased through Euclidean
division (they agree for positive divisors) so that `omega` can reason
about it. -/
theorem fdiv_hundred (x : Int) : x.fdiv 100 = x / 100 :=
  Int.fdiv_eq_ediv x (by norm_num)

/-- `jsOrNum` never yields 0 when the default is nonzero: any configured
nonzero number is kept and a configured 0 or absent field becomes the
default. -/
theorem jsOrNum_ne_zero (v : Option Int) {d : Int} (hd : d ≠ 0) :
    jsOrNum v d ≠ 0 := by
  cases v with
  | none => simpa [jsOrNum] using hd
  | some x =>
    simp only [jsOrNum]
    split_ifs with h
    · exact hd
    · exact h

/-- On a hit the rounded damage is at least 1 (the `Math.max(1, ...)` floor
survives `Math.round`). -/
theorem one_le_calculateDamage (a d : Character) (m v : ℚ) :
    1 ≤ CombatSystem.calculateDamage a d m v := by
  unfold CombatSystem.calculateDamage jsRound
  dsimp only
  apply Rat.le_floor.mpr
  push_cast
  have h := le_max_left (1 : ℚ)
    (((a.calculateTotalAttack : ℚ) * m - (d.calculateTotalDefense : ℚ) * (1 / 2)) *
      (1 + (v * (1 / 5) - 1 / 10)))
  linarith

/-- The code's `hitChance` written the way the spec states it. -/
theorem hitChance_spec (attacker defender : Character) :
    CombatSystem.hitChance attacker defender =
      min (0.95 : ℚ)
        (0.5 + 0.01 * ((attacker.stats.dexterity : ℚ) - (defender.stats.dexterity : ℚ))) := by
  unfold CombatSystem.hitChance
  rw [show (0.95 : ℚ) = 95 / 100 by norm_num, show (0.5 : ℚ) = 1 / 2 by norm_num,
    show (0.01 : ℚ) = 1 / 100 by norm_num]
  ring_nf

/-- `Map.set` then `Map.get` on the same key yields the stored value. -/
theorem find?_mapSet (m : List (Nat × Ent)) (k : Nat) (v : Ent) :
    (mapSet m k v).find? (fun p => p.1 == k) = some (k, v) := by
  induction m with
  | nil => simp [mapSet, List.find?]
  | cons hd tl ih =>
    obtain ⟨k', v'⟩ := hd
    by_cases h : k' = k
    · subst h; simp [mapSet, List.find?]
    · simp [mapSet, h, List.find?, ih]

/-!
### The claims
-/

/-- Claim C1 (confirmed).  A single `emit` call invokes every listener
subscribed at the moment the call begins, once each and in subscription
order (`getTopic` is the subscription-ordered list, `tagOf` names the
callback each subscribed id runs): the trace is exactly the listener list,
for *every* behaviour environment — in particular when any listener
throws, the remaining ones still run, and `emit` is a total function, so
no fault reaches the publisher (the per-listener `try`/`catch` is inside
`invoke`). -/
theorem claim_c1_emit_fault_isolation (env : Nat → LBody) (b : Bus) (t : String) :
    (EventBus.emit env b t).2 = (EventBus.getTopic b t).map (EventBus.tagOf env) :=
  EventBus.emit_trace env b t

/-- Claim C8 (confirmed).  The set and order of listeners invoked by one
`emit` is the subscription-ordered list captured when the call began, and
an `off` performed by a listener during the pass only takes effect for
later publishes: the unsubscribed id is gone from the topic once `emit`
returns, while the in-progress trace is untouched (because `off` assigns
a new filtered array, leaving the iterated array alone). -/
theorem claim_c8_snapshot_delivery (env : Nat → LBody) (b : Bus) (t : String) :
    ((EventBus.emit env b t).2 = (EventBus.getTopic b t).map (EventBus.tagOf env)) ∧
    (∀ l j : Nat, l ∈ EventBus.getTopic b t →
      env l = LBody.act (SimpleAct.callOff t j) →
      j ∉ EventBus.getTopic (EventBus.emit env b t).1 t) := by
  refine ⟨EventBus.emit_trace env b t, ?_⟩
  intro l j hl henv
  unfold EventBus.emit
  cases hf : EventBus.findTopic b.events t with
  | none => simp [EventBus.getTopic, hf] at hl
  | some L =>
    have hlL : l ∈ L := by simpa [EventBus.getTopic, hf] using hl
    exact EventBus.emitList_removes (EventBus.invoke_removes_callOff henv) hlL

/-- Witness for C8: listeners 1, 2, 3 on `"t"`, where listener 2
unsubscribes listener 3 mid-delivery; 3 is still invoked on this pass and
is gone afterwards. -/
theorem claim_c8_witness :
    (EventBus.emit envOffDuring busThree "t").2 = [1, 2, 3] ∧
    3 ∉ EventBus.getTopic (EventBus.emit envOffDuring busThree "t").1 "t" := by
  constructor
  · have h := (claim_c8_snapshot_delivery envOffDuring busThree "t").1
    rw [h]; decide
  · exact (claim_c8_snapshot_delivery envOffDuring busThree "t").2 2 3
      (by decide) (by decide)

/-- Claim C5 fails as stated: a `once` listener whose invocation throws is
*not* auto-unsubscribed (the wrapper's `this.off(...)` line is after the
inner `callback(data)` call, so the throw skips it), and is invoked again
on the next publish.  Here the inner callback (tag 7) of a once-wrapper on
`"death"` throws on the first publish and is invoked again on the second. -/
theorem claim_c5_counterexample :
    (EventBus.emit onceThrowSetup.2 onceThrowSetup.1 "death").2 = [7] ∧
    (EventBus.emit onceThrowSetup.2
      (EventBus.emit onceThrowSetup.2 onceThrowSetup.1 "death").1 "death").2 = [7] := by
  decide

/-- Claim C5 as amended: a listener registered via `once` whose invocation
completes *without* throwing is invoked on the first publish after
registration (exactly once, when it is subscribed exactly once and its tag
identifies it uniquely) and on no later publish; if the invocation throws,
the auto-unsubscribe is skipped and the listener fires again on later
publishes. -/
theorem claim_c5_amended (env : Nat → LBody) (b : Bus) (t : String)
    (w itag : Nat) (inner : SimpleAct)
    (hw : env w = LBody.onceWrap t itag inner)
    (hnothrow : inner ≠ SimpleAct.throwErr)
    (hcount : (EventBus.getTopic b t).count w = 1)
    (htag : ∀ l, EventBus.tagOf env l = itag → l = w) :
    ((EventBus.emit env b t).2).count itag = 1 ∧
    (∀ k, ((EventBus.emit env
        (EventBus.emitIter env t k (EventBus.emit env b t).1) t).2).count itag = 0) := by
  have htagw : EventBus.tagOf env w = itag := by
    unfold EventBus.tagOf; rw [hw]
  refine ⟨EventBus.emit_count_one htagw htag hcount, ?_⟩
  intro k
  have hpos : 0 < (EventBus.getTopic b t).count w := by omega
  have hwmem : w ∈ EventBus.getTopic b t := List.count_pos_iff.mp hpos
  have hout : w ∉ EventBus.getTopic (EventBus.emit env b t).1 t := by
    unfold EventBus.emit
    cases hf : EventBus.findTopic b.events t with
    | none => simp [EventBus.getTopic, hf] at hwmem
    | some L =>
      have hlL : w ∈ L := by simpa [EventBus.getTopic, hf] using hwmem
      exact EventBus.emitList_removes (EventBus.invoke_removes_once hw hnothrow) hlL
  exact EventBus.emit_count_zero (EventBus.emitIter_not_mem hout k) htag

/-- Witness for the amended C5: a non-throwing once-listener (wrapper id 1,
tag 1) on `"death"` fires exactly once on the first publish and not on the
second. -/
theorem claim_c5_amended_witness :
    ((EventBus.emit envOnce busOnce "death").2).count 1 = 1 ∧
    ((EventBus.emit envOnce
        (EventBus.emitIter envOnce "death" 0 (EventBus.emit envOnce busOnce "death").1)
        "death").2).count 1 = 0 := by
  have htag : ∀ l, EventBus.tagOf envOnce l = 1 → l = 1 := by
    intro l h
    by_cases hl : l = 1
    · exact hl
    · have h3 : envOnce l = LBody.act SimpleAct.ok := by
        unfold envOnce envOk
        rw [Function.update_noteq hl]
      have h2 : EventBus.tagOf envOnce l = l := by
        unfold EventBus.tagOf
        rw [h3]
      rw [h2] at h
      exact h
  have h := claim_c5_amended envOnce busOnce "death" 1 1 SimpleAct.ok
    (by decide) (by decide) (by decide) htag
  exact ⟨h.1, h.2 0⟩

/-- Claim C2 fails as stated: with negative amounts allowed, `takeDamage(-1)`
on a full-health character pushes health above `maxHealth`, and even with
nonnegative amounts `heal` on a dead character raises health above 0 while
`isAlive` stays false, breaking the biconditional. -/
theorem claim_c2_counterexample :
    healthInv (freshCharacter 0) ∧
    ¬ healthInv (Character.takeDamage (freshCharacter 0) (-1)).1 ∧
    healthInv deadDemo ∧
    ¬ healthInv (Character.heal deadDemo 30) := by
  decide

/-- Claim C2 as amended: for *nonnegative* amounts (and `levelUp` called
with a level strictly above the current one, as `addExperience` does),
each operation preserves the weaker invariant
`health ∈ [0, maxHealth] ∧ (health = 0 → isAlive = false)`; the original
biconditional is not preserved because `heal` can make a dead character's
health positive with `isAlive` still false. -/
theorem claim_c2_amended (c : Character) (hc : healthInvWeak c) :
    (∀ amt : Int, 0 ≤ amt → healthInvWeak (c.takeDamage amt).1) ∧
    (∀ amt : Int, 0 ≤ amt → healthInvWeak (c.heal amt)) ∧
    (∀ amt : Int, 0 ≤ amt → healthInvWeak (c.addExperience amt).1) ∧
    (∀ lvl : Int, c.level < lvl → healthInvWeak (c.levelUp lvl).1) := by
  obtain ⟨h1, h2, h3⟩ := hc
  refine ⟨?_, ?_, ?_, ?_⟩
  · intro amt ha
    unfold Character.takeDamage healthInvWeak
    dsimp only
    by_cases h : c.health - amt ≤ 0
    · rw [if_pos h]
      dsimp only
      exact ⟨le_refl 0, by omega, fun _ => rfl⟩
    · rw [if_neg h]
      dsimp only
      exact ⟨by omega, by omega, fun h0 => absurd h0 (by omega)⟩
  · intro amt ha
    unfold Character.heal healthInvWeak
    dsimp only
    refine ⟨by omega, by omega, fun h0 => ?_⟩
    by_cases hh : c.health = 0
    · exact h3 hh
    · exact absurd h0 (by omega)
  · intro amt ha
    unfold Character.addExperience
    dsimp only
    split_ifs with h
    · unfold Character.levelUp healthInvWeak
      dsimp only
      refine ⟨by omega, by omega, fun h0 => absurd h0 (by omega)⟩
    · dsimp only
      exact ⟨h1, h2, h3⟩
  · intro lvl hl
    unfold Character.levelUp healthInvWeak
    dsimp only
    refine ⟨by omega, by omega, fun h0 => absurd h0 (by omega)⟩

/-- Witness for the amended C2 at concrete states and amounts. -/
theorem claim_c2_amended_witness :
    healthInvWeak (freshCharacter 0) ∧
    healthInvWeak (Character.takeDamage (freshCharacter 0) 30).1 ∧
    healthInvWeak (Character.heal deadDemo 30) := by
  have h0 : healthInvWeak (freshCharacter 0) := by decide
  have hd : healthInvWeak deadDemo := by decide
  exact ⟨h0, (claim_c2_amended (freshCharacter 0) h0).1 30 (by decide),
    (claim_c2_amended deadDemo hd).2.1 30 (by decide)⟩

/-- Claim C3 (confirmed).  `takeDamage(amount)` leaves
`health = max(0, old − amount)`; whenever the new health is 0, `isAlive`
becomes false and — when the character is registered with an engine —
exactly the `character:died` event carrying the character is published. -/
theorem claim_c3_takeDamage (c : Character) (amt : Int) :
    (c.takeDamage amt).1.health = max 0 (c.health - amt) ∧
    ((c.takeDamage amt).1.health = 0 →
      (c.takeDamage amt).1.isAlive = false ∧
      (c.hasEngine = true →
        (c.takeDamage amt).2 = [GameEvent.characterDied c.id])) := by
  unfold Character.takeDamage
  dsimp only
  by_cases h : c.health - amt ≤ 0
  · rw [if_pos h]
    dsimp only
    exact ⟨(max_eq_left (by omega)).symm, fun _ => ⟨rfl, fun hE => by simp [hE]⟩⟩
  · rw [if_neg h]
    dsimp only
    exact ⟨(max_eq_right (by omega)).symm, fun h0 => absurd h0 (by omega)⟩

/-- Witness for C3: a lethal hit on an engine-registered character. -/
theorem claim_c3_witness :
    (Character.takeDamage charEngineDemo 150).1.health = 0 ∧
    (Character.takeDamage charEngineDemo 150).1.isAlive = false ∧
    (Character.takeDamage charEngineDemo 150).2 = [GameEvent.characterDied 0] := by
  have h := claim_c3_takeDamage charEngineDemo 150
  have h0 : (Character.takeDamage charEngineDemo 150).1.health = 0 := by
    rw [h.1]; decide
  exact ⟨h0, (h.2 h0).1, (h.2 h0).2 (by decide)⟩

/-- Claim C4 fails in its last part: `takeDamage` has no idempotence guard,
so a second `takeDamage(5)` on a character already at health 0 publishes
`character:died` *again*. -/
theorem claim_c4_counterexample :
    (Character.takeDamage charEngineDemo 100).2 = [GameEvent.characterDied 0] ∧
    (Character.takeDamage (Character.takeDamage charEngineDemo 100).1 5).2 =
      [GameEvent.characterDied 0] := by
  decide

/-- Claim C4 as amended: for an engine-registered character,
`takeDamage(amount)` with `amount ≥ health` leaves health 0 and
`isAlive = false` and publishes exactly one `character:died` event *on
that call*; but each subsequent nonnegative-damage call on the dead
character publishes `character:died` again (one event per call) — the
event is per-call, not per alive-to-dead transition. -/
theorem claim_c4_amended (c : Character) (amt : Int)
    (hEng : c.hasEngine = true) (hge : c.health ≤ amt) :
    (c.takeDamage amt).1.health = 0 ∧
    (c.takeDamage amt).1.isAlive = false ∧
    (c.takeDamage amt).2 = [GameEvent.characterDied c.id] ∧
    (∀ amt' : Int, 0 ≤ amt' →
      ((c.takeDamage amt).1.takeDamage amt').2 = [GameEvent.characterDied c.id]) := by
  unfold Character.takeDamage
  dsimp only
  rw [if_pos (by omega)]
  dsimp only
  refine ⟨rfl, rfl, by simp [hEng], ?_⟩
  intro amt' ha
  rw [if_pos (by omega)]
  simp [hEng]

/-- Witness for the amended C4. -/
theorem claim_c4_amended_witness :
    (Character.takeDamage charEngineDemo 150).1.health = 0 ∧
    (Character.takeDamage charEngineDemo 150).2 = [GameEvent.characterDied 0] ∧
    ((Character.takeDamage charEngineDemo 150).1.takeDamage 5).2 =
      [GameEvent.characterDied 0] := by
  have h := claim_c4_amended charEngineDemo 150 (by decide) (by decide)
  exact ⟨h.1, h.2.2.1, h.2.2.2 5 (by decide)⟩

/-- Level stays the pure function `floor(experience/100) + 1` of experience
across any nonnegative `addExperience` call. -/
theorem addExperience_levelInv {c : Character} (hc : levelInv c) {amt : Int}
    (ha : 0 ≤ amt) : levelInv (c.addExperience amt).1 := by
  unfold Character.addExperience
  dsimp only
  split_ifs with h
  · unfold Character.levelUp levelInv
    dsimp only
  · unfold levelInv at hc ⊢
    dsimp only
    rw [fdiv_hundred] at hc h ⊢
    omega

/-- `levelInv` propagated through a whole list of nonnegative
`addExperience` calls. -/
theorem applyAddExps_levelInv : ∀ (amts : List Int) (c : Character),
    levelInv c → (∀ a ∈ amts, 0 ≤ a) → levelInv (applyAddExps c amts)
  | [], _, hc, _ => hc
  | a :: rest, c, hc, hall => by
    unfold applyAddExps
    exact applyAddExps_levelInv rest _
      (addExperience_levelInv hc (hall a (by simp)))
      (fun x hx => hall x (by simp [hx]))

/-- Claim C6 fails as stated over arbitrary amounts: `addExperience` only
ever levels *up* (`if (newLevel > this.level)`), so a negative amount
lowers experience without lowering the level.  From a fresh level-1
character, `addExperience(150)` then `addExperience(-100)` leaves level 2
and experience 50, while `floor(50/100) + 1 = 1` — the law
`level = floor(experience/100) + 1` is violated. -/
theorem claim_c6_counterexample :
    (applyAddExps (freshCharacter 0) [150, -100]).level = 2 ∧
    (applyAddExps (freshCharacter 0) [150, -100]).experience = 50 ∧
    (50 : Int).fdiv 100 + 1 = 1 ∧
    ¬ levelInv (applyAddExps (freshCharacter 0) [150, -100]) := by
  decide

/-- Claim C6 as amended: restricted to *nonnegative* amounts.  Starting
from a fresh level-1 character, after every sequence of nonnegative
`addExperience` calls the level equals `floor(experience/100) + 1`; the
level never decreases on a call (this part holds for arbitrary amounts);
a zero-amount call changes nothing and publishes nothing; one call
performs at most one `levelUp` and so publishes at most one
`character:levelUp` event, which carries the final new level; and
concretely `addExperience(250)` on a fresh engine-registered character
yields level 3 with exactly one event carrying newLevel 3. -/
theorem claim_c6_addExperience :
    (∀ amts : List Int, (∀ a ∈ amts, 0 ≤ a) →
      levelInv (applyAddExps (freshCharacter 0) amts)) ∧
    (∀ (c : Character) (amt : Int), c.level ≤ (c.addExperience amt).1.level) ∧
    (∀ c : Character, levelInv c → c.addExperience 0 = (c, [])) ∧
    (∀ (c : Character) (amt : Int),
      (c.addExperience amt).2 = [] ∨
      (c.addExperience amt).2 =
        [GameEvent.characterLevelUp c.id (c.addExperience amt).1.level]) ∧
    ((Character.addExperience charEngineDemo 250).1.level = 3 ∧
      (Character.addExperience charEngineDemo 250).2 =
        [GameEvent.characterLevelUp 0 3]) := by
  refine ⟨fun amts h => applyAddExps_levelInv amts _ (by decide) h, ?_, ?_, ?_, by decide⟩
  · intro c amt
    unfold Character.addExperience
    dsimp only
    split_ifs with h
    · unfold Character.levelUp
      dsimp only
      omega
    · exact le_refl _
  · intro c hc
    unfold levelInv at hc
    unfold Character.addExperience
    dsimp only
    simp only [add_zero]
    rw [← hc, if_neg (lt_irrefl _)]
  · intro c amt
    unfold Character.addExperience
    dsimp only
    split_ifs with h
    · unfold Character.levelUp
      dsimp only
      cases hE : c.hasEngine with
      | false => exact Or.inl (by simp)
      | true => exact Or.inr (by simp)
    · exact Or.inl rfl

/-- Witness for C6. -/
theorem claim_c6_witness :
    levelInv (applyAddExps (freshCharacter 0) [50, 60]) ∧
    Character.addExperience (freshCharacter 0) 0 = (freshCharacter 0, []) := by
  have h := claim_c6_addExperience
  exact ⟨h.1 [50, 60] (by decide), h.2.2.1 (freshCharacter 0) (by decide)⟩

/-- Claim C7 (confirmed).  With the three random draws taken as inputs,
`performAttack` misses — returning `{hit:false, damage:0, critical:false}`
and leaving the defender untouched, no events — exactly when the hit roll
exceeds `min(0.95, 0.5 + 0.01·(attacker.dexterity − defender.dexterity))`;
otherwise it hits, the returned damage is at least 1, and that damage is
applied to the defender via `takeDamage`. -/
theorem claim_c7_performAttack (attacker defender : Character)
    (hitRoll critRoll varianceRoll : ℚ) :
    (hitRoll > min (0.95 : ℚ)
        (0.5 + 0.01 * ((attacker.stats.dexterity : ℚ) - (defender.stats.dexterity : ℚ))) →
      CombatSystem.performAttack attacker defender hitRoll critRoll varianceRoll =
        ({ hit := false, damage := 0, critical := false }, defender, [])) ∧
    (hitRoll ≤ min (0.95 : ℚ)
        (0.5 + 0.01 * ((attacker.stats.dexterity : ℚ) - (defender.stats.dexterity : ℚ))) →
      (CombatSystem.performAttack attacker defender hitRoll critRoll varianceRoll).1.hit
          = true ∧
      1 ≤ (CombatSystem.performAttack attacker defender hitRoll critRoll varianceRoll).1.damage ∧
      (CombatSystem.performAttack attacker defender hitRoll critRoll varianceRoll).2 =
        defender.takeDamage
          (CombatSystem.performAttack attacker defender hitRoll critRoll
            varianceRoll).1.damage) := by
  have hch := hitChance_spec attacker defender
  constructor
  · intro h
    unfold CombatSystem.performAttack
    rw [if_pos (by rw [hch]; exact h)]
  · intro h
    unfold CombatSystem.performAttack
    rw [if_neg (by rw [hch]; exact not_lt.mpr h)]
    exact ⟨rfl, one_le_calculateDamage _ _ _ _, rfl⟩

/-- Witness for C7: equal-dexterity characters, a 0.75 roll misses
(hitChance 0.5); a 0 roll hits with damage at least 1. -/
theorem claim_c7_witness :
    CombatSystem.performAttack charEngineDemo charEngineDemo (3 / 4) 0 0 =
      ({ hit := false, damage := 0, critical := false }, charEngineDemo, []) ∧
    1 ≤ (CombatSystem.performAttack charEngineDemo charEngineDemo 0 (1 / 2) (1 / 2)).1.damage := by
  have hd : charEngineDemo.stats.dexterity = 10 := rfl
  constructor
  · refine (claim_c7_performAttack charEngineDemo charEngineDemo (3 / 4) 0 0).1 ?_
    rw [hd]
    norm_num [min_def]
  · refine ((claim_c7_performAttack charEngineDemo charEngineDemo 0 (1 / 2) (1 / 2)).2
      ?_).2.1
    rw [hd]
    norm_num [min_def]

/-- Claim C9 (confirmed).  `addEntity` on a full registry returns `false`
(no exception — the model is a total function), mutates nothing and emits
nothing; below the maximum it stores the entity under its id with the
engine back-reference set, emits `entity:added`, and returns `true`. -/
theorem claim_c9_addEntity (eng : RPGEngine) (e : Ent) :
    (eng.maxEntities ≤ eng.entities.length →
      eng.addEntity e = (false, eng, [])) ∧
    (eng.entities.length < eng.maxEntities →
      (eng.addEntity e).1 = true ∧
      (eng.addEntity e).2.1.getEntity e.id = some { e with hasEngine := true } ∧
      (eng.addEntity e).2.2 = [GameEvent.entityAdded e.id]) := by
  constructor
  · intro h
    unfold RPGEngine.addEntity
    rw [if_pos h]
  · intro h
    unfold RPGEngine.addEntity
    rw [if_neg (by omega)]
    refine ⟨rfl, ?_, rfl⟩
    unfold RPGEngine.getEntity
    dsimp only
    rw [find?_mapSet]

/-- Witness for C9: a zero-capacity engine rejects; a roomy engine stores
entity 5 with its back-reference set. -/
theorem claim_c9_witness :
    RPGEngine.addEntity engFull entDemo = (false, engFull, []) ∧
    (RPGEngine.addEntity engRoom entDemo).1 = true ∧
    (RPGEngine.addEntity engRoom entDemo).2.1.getEntity 5 =
      some { id := 5, hasEngine := true } := by
  refine ⟨(claim_c9_addEntity engFull entDemo).1 (by decide), ?_, ?_⟩
  · exact ((claim_c9_addEntity engRoom entDemo).2 (by decide)).1
  · exact ((claim_c9_addEntity engRoom entDemo).2 (by decide)).2.1

/-- Claim C10 (confirmed).  The constructor reads every numeric config
field through JS `||`, so a configured 0 is replaced by the documented
default (health 100, level 1, attack 5, mana 50) and is indistinguishable
from an absent field; consequently no config can produce a dead character
(`isAlive` is unconditionally true and health is never 0) or a zero base
stat. -/
theorem claim_c10_constructor_zero_defaults (id : Nat) (nm : String)
    (cfg : CharConfig) :
    (mkCharacter id nm { cfg with health := some 0 }).health = 100 ∧
    (mkCharacter id nm { cfg with level := some 0 }).level = 1 ∧
    (mkCharacter id nm { cfg with attack := some 0 }).attack = 5 ∧
    (mkCharacter id nm { cfg with mana := some 0 }).mana = 50 ∧
    mkCharacter id nm { cfg with health := some 0 } =
      mkCharacter id nm { cfg with health := none } ∧
    mkCharacter id nm { cfg with level := some 0 } =
      mkCharacter id nm { cfg with level := none } ∧
    mkCharacter id nm { cfg with attack := some 0 } =
      mkCharacter id nm { cfg with attack := none } ∧
    mkCharacter id nm { cfg with mana := some 0 } =
      mkCharacter id nm { cfg with mana := none } ∧
    (mkCharacter id nm cfg).isAlive = true ∧
    (mkCharacter id nm cfg).health ≠ 0 ∧
    (mkCharacter id nm cfg).level ≠ 0 ∧
    (mkCharacter id nm cfg).attack ≠ 0 ∧
    (mkCharacter id nm cfg).mana ≠ 0 ∧
    (mkCharacter id nm cfg).stats.strength ≠ 0 ∧
    (mkCharacter id nm cfg).stats.dexterity ≠ 0 := by
  refine ⟨rfl, rfl, rfl, rfl, rfl, rfl, rfl, rfl, rfl, ?_, ?_, ?_, ?_, ?_, ?_⟩
  · exact jsOrNum_ne_zero cfg.health (by decide)
  · exact jsOrNum_ne_zero cfg.level (by decide)
  · exact jsOrNum_ne_zero cfg.attack (by decide)
  · exact jsOrNum_ne_zero cfg.mana (by decide)
  · exact jsOrNum_ne_zero cfg.strength (by decide)
  · exact jsOrNum_ne_zero cfg.dexterity (by decide)

end RPG
